import Mathlib

/-!
Shallow embedding of `buck06191/todo-app` (`src/main.go`).

The program is a single-shot CLI: it reads the `-add` flag (default
`"Something worth doing"`), `json.Unmarshal`s it into `TodoItem`, parses the
optional due date with Go layout `"2006-01-02"` (terminating the process via
`log.Fatal` on malformed input), builds a `ParsedTodoItem`, and prints a
`json.MarshalIndent` rendering prefixed by `"You entered:"`.

Fatal termination (`log.Fatal`: diagnostic message plus exit status 1) is
modelled by `Except.error diagnostic`; the success value is `Except.ok`.

The Go standard-library routines the source calls (`encoding/json`'s
`Unmarshal` / `MarshalIndent`, `time.Parse`, `time.Time.MarshalJSON`) are
embedded below, restricted to the concrete types and layout the source uses:

* `parseJson` / `parseStringBody` / `parseNumber` embed the `encoding/json`
  scanner and value grammar (RFC 8259 as implemented by Go: whitespace is
  space/tab/LF/CR; numbers are `-?(0|[1-9][0-9]*)(\.[0-9]+)?([eE][+-]?[0-9]+)?`;
  strings reject raw control characters below 0x20, accept the eight
  single-character escapes and `\uXXXX` with UTF-16 surrogate-pair
  combination, lone surrogates decoding to U+FFFD as in Go's `unquote`).
  Go's scanner depth limit (10000) is not modelled.
* `jsonToTodoItem` embeds `Unmarshal` decoding into `struct TodoItem`:
  top-level `null` leaves the zero struct, a non-object non-null top level is
  a type error, keys match the field tags `todo` / `due` case-insensitively
  (ASCII folding coincides with Go's fold for these two field names, which
  contain no `k`/`s`), later duplicates win, `null` field values are no-ops,
  non-string non-null values for a matched key are type errors, and unknown
  keys are skipped.
* `goParseYmd` embeds `time.Parse("2006-01-02", _)`: exactly four year
  digits, a literal `-`, exactly two month digits, a literal `-`, exactly two
  day digits, no trailing text, then the range checks month `1..12` and day
  `1..daysIn month year` (Go rejects e.g. Feb 30; leap years per the
  Gregorian rule).
* `escapeGoChar` / `encodeGoString` embed Go's JSON string encoder with its
  default HTML escaping (`<`, `>`, `&`, U+2028, U+2029 and control characters
  become `\u00xx`-style escapes).
* `marshalTime` embeds `time.Time.MarshalJSON` for midnight-UTC values:
  RFC3339 with zero nanoseconds, plus the year-range check `[0,9999]`.
-/

/-! ## JSON values and the `encoding/json` scanner -/

inductive Json where
  | null : Json
  | bool (b : Bool) : Json
  | num (raw : String) : Json
  | str (s : String) : Json
  | arr (elems : List Json) : Json
  | obj (members : List (String × Json)) : Json

/-- Go JSON whitespace: space, horizontal tab, line feed, carriage return. -/
def isJsonWs (c : Char) : Bool :=
  [' ', '\t', '\n', '\r'].contains c

def skipWs : List Char → List Char
  | [] => []
  | c :: cs => if isJsonWs c then skipWs cs else c :: cs

/-- Hexadecimal digit value, as accepted by Go's `getu4`. -/
def hexVal (c : Char) : Option Nat :=
  if '0' ≤ c ∧ c ≤ '9' then some (c.toNat - 48)
  else if 'a' ≤ c ∧ c ≤ 'f' then some (c.toNat - 87)
  else if 'A' ≤ c ∧ c ≤ 'F' then some (c.toNat - 55)
  else none

/-- The eight single-character JSON escapes, as escape letter / decoded
character pairs. -/
def unescapeChar (c : Char) : Option Char :=
  List.lookup c
    [('"', '"'), ('\\', '\\'), ('/', '/'), ('b', Char.ofNat 8), ('f', Char.ofNat 12),
     ('n', Char.ofNat 10), ('r', Char.ofNat 13), ('t', Char.ofNat 9)]

/-- Scan a JSON string body (the opening quote already consumed), returning
the decoded characters and the remaining input. Mirrors Go's string scanning
plus `unquote`: raw control characters below 0x20 are rejected, `\uXXXX`
needs four hex digits, surrogate pairs combine, and a surrogate that does not
begin a valid pair decodes to U+FFFD while consuming only its own escape. -/
def parseStringBodyF : Nat → List Char → Option (List Char × List Char)
  | 0, _ => none
  | _ + 1, [] => none
  | _ + 1, '"' :: cs => some ([], cs)
  | fuel + 1, '\\' :: 'u' :: h1 :: h2 :: h3 :: h4 :: '\\' :: 'u' :: g1 :: g2 :: g3 :: g4 :: cs3 =>
    (match hexVal h1, hexVal h2, hexVal h3, hexVal h4 with
    | some a, some b, some c, some d =>
      let n := ((a * 16 + b) * 16 + c) * 16 + d
      if 0xD800 ≤ n ∧ n < 0xE000 then
        match hexVal g1, hexVal g2, hexVal g3, hexVal g4 with
        | some p, some q, some r, some t =>
          let n2 := ((p * 16 + q) * 16 + r) * 16 + t
          if n < 0xDC00 ∧ 0xDC00 ≤ n2 ∧ n2 < 0xE000 then
            (parseStringBodyF fuel cs3).map (fun pr =>
              (Char.ofNat (0x10000 + (n - 0xD800) * 0x400 + (n2 - 0xDC00)) :: pr.1, pr.2))
          else
            (parseStringBodyF fuel ('\\' :: 'u' :: g1 :: g2 :: g3 :: g4 :: cs3)).map
              (fun pr => (Char.ofNat 0xFFFD :: pr.1, pr.2))
        | _, _, _, _ =>
          (parseStringBodyF fuel ('\\' :: 'u' :: g1 :: g2 :: g3 :: g4 :: cs3)).map
            (fun pr => (Char.ofNat 0xFFFD :: pr.1, pr.2))
      else
        (parseStringBodyF fuel ('\\' :: 'u' :: g1 :: g2 :: g3 :: g4 :: cs3)).map
          (fun pr => (Char.ofNat n :: pr.1, pr.2))
    | _, _, _, _ => none)
  | fuel + 1, '\\' :: 'u' :: h1 :: h2 :: h3 :: h4 :: cs2 =>
    (match hexVal h1, hexVal h2, hexVal h3, hexVal h4 with
    | some a, some b, some c, some d =>
      let n := ((a * 16 + b) * 16 + c) * 16 + d
      if 0xD800 ≤ n ∧ n < 0xE000 then
        (parseStringBodyF fuel cs2).map (fun pr => (Char.ofNat 0xFFFD :: pr.1, pr.2))
      else
        (parseStringBodyF fuel cs2).map (fun pr => (Char.ofNat n :: pr.1, pr.2))
    | _, _, _, _ => none)
  | fuel + 1, '\\' :: e :: cs2 =>
    (match unescapeChar e with
    | some c => (parseStringBodyF fuel cs2).map (fun pr => (c :: pr.1, pr.2))
    | none => none)
  | _ + 1, ['\\'] => none
  | fuel + 1, c :: cs =>
    if c.val < 0x20 then none
    else (parseStringBodyF fuel cs).map (fun pr => (c :: pr.1, pr.2))

/-- Entry point with enough fuel: every step of `parseStringBodyF` consumes
at least one character, so `length + 1` steps always suffice. -/
def parseStringBody (cs : List Char) : Option (List Char × List Char) :=
  parseStringBodyF (cs.length + 1) cs

def takeDigits : List Char → List Char × List Char
  | [] => ([], [])
  | c :: cs =>
    if c.isDigit then
      let p := takeDigits cs
      (c :: p.1, p.2)
    else ([], c :: cs)

/-- Optional exponent part of a JSON number: `[eE][+-]?[0-9]+` or nothing. -/
def parseExpPart (cs : List Char) : Option (List Char × List Char) :=
  match cs with
  | 'e' :: cs2 =>
    (match cs2 with
    | '+' :: r =>
      let p := takeDigits r
      if p.1.isEmpty then none else some ('e' :: '+' :: p.1, p.2)
    | '-' :: r =>
      let p := takeDigits r
      if p.1.isEmpty then none else some ('e' :: '-' :: p.1, p.2)
    | _ =>
      let p := takeDigits cs2
      if p.1.isEmpty then none else some ('e' :: p.1, p.2))
  | 'E' :: cs2 =>
    (match cs2 with
    | '+' :: r =>
      let p := takeDigits r
      if p.1.isEmpty then none else some ('E' :: '+' :: p.1, p.2)
    | '-' :: r =>
      let p := takeDigits r
      if p.1.isEmpty then none else some ('E' :: '-' :: p.1, p.2)
    | _ =>
      let p := takeDigits cs2
      if p.1.isEmpty then none else some ('E' :: p.1, p.2))
  | _ => some ([], cs)

/-- Optional fraction then optional exponent: `(\.[0-9]+)?([eE][+-]?[0-9]+)?`. -/
def parseFracExp (cs : List Char) : Option (List Char × List Char) :=
  match cs with
  | '.' :: cs2 =>
    let p := takeDigits cs2
    if p.1.isEmpty then none
    else
      match parseExpPart p.2 with
      | some (e, r) => some ('.' :: (p.1 ++ e), r)
      | none => none
  | _ => parseExpPart cs

/-- A JSON number: `-?(0|[1-9][0-9]*)` then `parseFracExp`. Returns the raw
characters of the number and the remaining input. -/
def parseNumber (cs : List Char) : Option (List Char × List Char) :=
  match cs with
  | '-' :: cs1 =>
    (match cs1 with
    | '0' :: r =>
      (match parseFracExp r with
      | some (fe, rest) => some ('-' :: '0' :: fe, rest)
      | none => none)
    | c :: r =>
      if c.isDigit then
        let p := takeDigits r
        match parseFracExp p.2 with
        | some (fe, rest) => some ('-' :: c :: (p.1 ++ fe), rest)
        | none => none
      else none
    | [] => none)
  | '0' :: r =>
    (match parseFracExp r with
    | some (fe, rest) => some ('0' :: fe, rest)
    | none => none)
  | c :: r =>
    if c.isDigit then
      let p := takeDigits r
      match parseFracExp p.2 with
      | some (fe, rest) => some (c :: (p.1 ++ fe), rest)
      | none => none
    else none
  | [] => none

mutual

/-- One JSON value (leading whitespace allowed), fuelled for termination. -/
def parseValue : Nat → List Char → Option (Json × List Char)
  | 0, _ => none
  | Nat.succ fuel, cs =>
    match skipWs cs with
    | [] => none
    | c :: rest =>
      if c == '\x7b' then
        match skipWs rest with
        | '\x7d' :: r => some (.obj [], r)
        | cs2 =>
          match parseMembers fuel cs2 with
          | some (ms, r) => some (.obj ms, r)
          | none => none
      else if c == '[' then
        match skipWs rest with
        | ']' :: r => some (.arr [], r)
        | cs2 =>
          match parseElems fuel cs2 with
          | some (vs, r) => some (.arr vs, r)
          | none => none
      else if c == '"' then
        match parseStringBody rest with
        | some (body, r) => some (.str (String.mk body), r)
        | none => none
      else if c == 't' then
        match rest with
        | 'r' :: 'u' :: 'e' :: r => some (.bool true, r)
        | _ => none
      else if c == 'f' then
        match rest with
        | 'a' :: 'l' :: 's' :: 'e' :: r => some (.bool false, r)
        | _ => none
      else if c == 'n' then
        match rest with
        | 'u' :: 'l' :: 'l' :: r => some (.null, r)
        | _ => none
      else if c == '-' || c.isDigit then
        match parseNumber (c :: rest) with
        | some (numChars, r) => some (.num (String.mk numChars), r)
        | none => none
      else none

/-- Members of a non-empty JSON object, positioned at the (whitespace-skipped)
first key; consumes through the closing brace. -/
def parseMembers : Nat → List Char → Option (List (String × Json) × List Char)
  | 0, _ => none
  | Nat.succ fuel, cs =>
    match cs with
    | '"' :: r =>
      (match parseStringBody r with
      | some (key, r2) =>
        (match skipWs r2 with
        | ':' :: r3 =>
          (match parseValue fuel r3 with
          | some (v, r4) =>
            (match skipWs r4 with
            | ',' :: r5 =>
              (match parseMembers fuel (skipWs r5) with
              | some (ms, r6) => some ((String.mk key, v) :: ms, r6)
              | none => none)
            | '\x7d' :: r5 => some ([(String.mk key, v)], r5)
            | _ => none)
          | none => none)
        | _ => none)
      | none => none)
    | _ => none

/-- Elements of a non-empty JSON array; consumes through the closing bracket. -/
def parseElems : Nat → List Char → Option (List Json × List Char)
  | 0, _ => none
  | Nat.succ fuel, cs =>
    match parseValue fuel cs with
    | some (v, r) =>
      (match skipWs r with
      | ',' :: r2 =>
        (match parseElems fuel r2 with
        | some (vs, r3) => some (v :: vs, r3)
        | none => none)
      | ']' :: r2 => some ([v], r2)
      | _ => none)
    | none => none

end

/-- Syntactic validation and parsing of one complete JSON text, as
`encoding/json.Unmarshal` checks it: one value, then only trailing
whitespace. The fuel `2 * (length + 1)` dominates the recursion depth, which
Go bounds only by its (unmodelled) depth limit of 10000. -/
def parseJson (s : String) : Option Json :=
  match parseValue (2 * (s.data.length + 1)) s.data with
  | some (j, rest) => if (skipWs rest).isEmpty then some j else none
  | none => none

/-! ## The data model (`TodoItem`, `ParsedTodoItem`) and `json.Unmarshal`
into `TodoItem` -/

/-- `src/main.go` lines 16-19: the as-received form of the input JSON, with
struct tags `json:"todo"` and `json:"due,omitempty"`. Go's zero value for
both fields is the empty string. -/
structure TodoItem where
  Todo : String
  Due : String
deriving DecidableEq

/-- The zero value `var todoItem TodoItem` that `Unmarshal` decodes into. -/
def zeroTodoItem : TodoItem := { Todo := "", Due := "" }

/-- Go's model for a `time.Time` holding a parsed `"2006-01-02"` value or the
zero value: a calendar date at midnight UTC. `time.Time{}` is January 1 of
year 1. -/
structure GoDate where
  year : Nat
  month : Nat
  day : Nat
deriving DecidableEq

/-- The zero value `time.Time{}`: 0001-01-01 00:00:00 UTC. -/
def zeroTime : GoDate := { year := 1, month := 1, day := 1 }

/-- `src/main.go` lines 23-26: the display-ready form, `Due` parsed. -/
structure ParsedTodoItem where
  Todo : String
  Due : GoDate
deriving DecidableEq

/-- ASCII case folding on field-name characters, as `encoding/json` matches
object keys against struct field tags. (Go additionally folds the Unicode
Kelvin sign to `k` and long s to `s`, but the tags `todo` and `due` contain
neither letter, so ASCII folding coincides with Go's fold for them.) -/
def asciiFoldEq : List Char → List Char → Bool
  | [], [] => true
  | a :: as, b :: bs => a.toLower == b.toLower && asciiFoldEq as bs
  | _, _ => false

/-- Decode one object member into the struct, Go `Unmarshal` style: a key
matching `todo` or `due` (case-insensitively) must carry a string value
(stored; later duplicates overwrite) or `null` (a no-op); any other value
there is an `UnmarshalTypeError`. Unmatched keys are skipped. -/
def applyMember (acc : TodoItem) (kv : String × Json) : Option TodoItem :=
  if asciiFoldEq kv.1.data "todo".data then
    match kv.2 with
    | .str s => some { acc with Todo := s }
    | .null => some acc
    | _ => none
  else if asciiFoldEq kv.1.data "due".data then
    match kv.2 with
    | .str s => some { acc with Due := s }
    | .null => some acc
    | _ => none
  else some acc

/-- `json.Unmarshal` of a scanned JSON value into `&todoItem`: top-level
`null` leaves the zero struct, an object decodes member by member, and any
other top-level value is an `UnmarshalTypeError`. `none` models a non-nil
returned error. -/
def jsonToTodoItem : Json → Option TodoItem
  | .null => some zeroTodoItem
  | .obj members => members.foldlM applyMember zeroTodoItem
  | _ => none

/-- `json.Unmarshal([]byte(*input), &todoItem)` in `ParseInput`
(`src/main.go` line 50): syntactic scan then decode; `none` models a non-nil
error from either stage. -/
def UnmarshalTodoItem (input : String) : Option TodoItem :=
  (parseJson input).bind jsonToTodoItem

/-! ## `parseDuedate` (`src/main.go` lines 28-42) and `time.Parse` -/

/-- Gregorian leap-year rule, Go `time.isLeap`. -/
def isLeap (y : Nat) : Bool :=
  y % 4 == 0 && (y % 100 != 0 || y % 400 == 0)

/-- Days in a month, Go `time.daysIn`. -/
def daysIn (m y : Nat) : Nat :=
  if m == 2 && isLeap y then 29
  else [31, 28, 31, 30, 31, 30, 31, 31, 30, 31, 30, 31].getD (m - 1) 0

/-- Decimal digit value. -/
def dval (c : Char) : Nat := c.toNat - 48

/-- `time.Parse("2006-01-02", value)`: exactly four year digits, `-`, exactly
two month digits, `-`, exactly two day digits, nothing after; then the range
checks `1 ≤ month ≤ 12` and `1 ≤ day ≤ daysIn month year`. `none` models a
non-nil `*time.ParseError`. -/
def goParseYmd : List Char → Option GoDate
  | [y1, y2, y3, y4, h1, m1, m2, h2, d1, d2] =>
    if y1.isDigit && y2.isDigit && y3.isDigit && y4.isDigit && h1 == '-'
        && m1.isDigit && m2.isDigit && h2 == '-' && d1.isDigit && d2.isDigit then
      if 1 ≤ dval m1 * 10 + dval m2 ∧ dval m1 * 10 + dval m2 ≤ 12 ∧
          1 ≤ dval d1 * 10 + dval d2 ∧
          dval d1 * 10 + dval d2 ≤
            daysIn (dval m1 * 10 + dval m2)
              (((dval y1 * 10 + dval y2) * 10 + dval y3) * 10 + dval y4) then
        some { year := ((dval y1 * 10 + dval y2) * 10 + dval y3) * 10 + dval y4,
               month := dval m1 * 10 + dval m2, day := dval d1 * 10 + dval d2 }
      else none
    else none
  | _ => none

/-- `src/main.go` lines 28-42. `log.Fatal` (diagnostic plus exit status 1) is
modelled as `Except.error` carrying the diagnostic. -/
def parseDuedate (dueDate : String) : Except String GoDate :=
  if dueDate = "" then Except.ok zeroTime
  else
    match goParseYmd dueDate.data with
    | none => Except.error "Badly formed due date."
    | some parsedDueDate => Except.ok parsedDueDate

/-! ## `ParseInput` (`src/main.go` lines 47-61) -/

/-- `src/main.go` lines 55-59: build the `ParsedTodoItem` from the
deserialised `TodoItem` — copy `Todo`, parse `Due`. (Inline in `ParseInput`
in the source; the spec calls this step BuildParsedItem.) -/
def buildParsedItem (todoItem : TodoItem) : Except String ParsedTodoItem :=
  match parseDuedate todoItem.Due with
  | Except.error e => Except.error e
  | Except.ok parsedDueDate => Except.ok { Todo := todoItem.Todo, Due := parsedDueDate }

/-- `src/main.go` lines 47-61: unmarshal (fatal `"Invalid JSON passed to
./todo-app"` on a non-nil error), then parse the due date and build the
result. -/
def ParseInput (input : String) : Except String ParsedTodoItem :=
  match UnmarshalTodoItem input with
  | none => Except.error "Invalid JSON passed to ./todo-app"
  | some todoItem => buildParsedItem todoItem

/-! ## `PrettyPrintItem` (`src/main.go` lines 64-70) and `json.MarshalIndent` -/

def hexDigitChar (n : Nat) : Char :=
  if n < 10 then Char.ofNat (48 + n) else Char.ofNat (87 + n)

/-- Go's JSON string encoder for one character, with the default HTML
escaping of `encoding/json.Marshal`. -/
def escapeGoChar (c : Char) : List Char :=
  if c == '"' then "\\\"".data
  else if c == '\\' then "\\\\".data
  else if c == '\n' then "\\n".data
  else if c == '\r' then "\\r".data
  else if c == '\t' then "\\t".data
  else if c == '<' then "\\u003c".data
  else if c == '>' then "\\u003e".data
  else if c == '&' then "\\u0026".data
  else if c.val < 0x20 then "\\u00".data ++ [hexDigitChar (c.toNat / 16), hexDigitChar (c.toNat % 16)]
  else if c.toNat == 0x2028 then "\\u2028".data
  else if c.toNat == 0x2029 then "\\u2029".data
  else [c]

/-- Go's `Marshal` encoding of a string value, quotes included. -/
def encodeGoString (s : String) : String :=
  String.mk ('"' :: (s.data.map escapeGoChar).flatten ++ ['"'])

def pad2 (n : Nat) : String := if n < 10 then "0" ++ toString n else toString n

def pad4 (n : Nat) : String :=
  if n < 10 then "000" ++ toString n
  else if n < 100 then "00" ++ toString n
  else if n < 1000 then "0" ++ toString n
  else toString n

/-- RFC3339 rendering of a midnight-UTC date, as `time.Time.MarshalJSON`
formats every value `parseDuedate` can produce (zero nanoseconds, UTC). -/
def rfc3339Midnight (d : GoDate) : String :=
  pad4 d.year ++ "-" ++ pad2 d.month ++ "-" ++ pad2 d.day ++ "T00:00:00Z"

/-- `time.Time.MarshalJSON`: errors outside year range `[0,9999]`, otherwise
the quoted RFC3339 string. -/
def marshalTime (d : GoDate) : Except String String :=
  if d.year > 9999 then Except.error "Time.MarshalJSON: year outside of range [0,9999]"
  else Except.ok ("\"" ++ rfc3339Midnight d ++ "\"")

/-- `json.MarshalIndent(item, "\t", "\t")` for `ParsedTodoItem` (no struct
tags, so the JSON keys are the field names `Todo` and `Due`): each member on
its own line after prefix+indent, closing brace after the prefix. -/
def marshalIndentItem (item : ParsedTodoItem) : Except String String :=
  match marshalTime item.Due with
  | Except.error e => Except.error e
  | Except.ok dueJson =>
    Except.ok ("\x7b\n\t\t\"Todo\": " ++ encodeGoString item.Todo
      ++ ",\n\t\t\"Due\": " ++ dueJson ++ "\n\t\x7d")

/-- The full text handed to `fmt.Printf("You entered:\n\n\t%s", …)` on the
success path of `PrettyPrintItem`, or the marshalling error. -/
def renderedOutput (item : ParsedTodoItem) : Except String String :=
  match marshalIndentItem item with
  | Except.error e => Except.error e
  | Except.ok formattedItem => Except.ok ("You entered:\n\n\t" ++ formattedItem)

/-- `src/main.go` lines 64-70. The standard-output stream is abstracted as a
`write` function returning the byte count written and a possible write
error, which `PrettyPrintItem` passes back to its caller as `(n, err)`; a
marshalling error is returned as `(0, err)` without writing. It has no
fatal-termination path. -/
def PrettyPrintItem (write : String → Nat × Option String)
    (item : ParsedTodoItem) : Nat × Option String :=
  match renderedOutput item with
  | Except.error e => (0, some e)
  | Except.ok s => write s

/-- A healthy stdout: writes everything, reports no error. -/
def goodStdout : String → Nat × Option String :=
  fun s => (s.utf8ByteSize, none)

/-! ## `main` (`src/main.go` lines 72-76) and the flag -/

/-- The default of `flag.String("add", "Something worth doing", …)`
(`src/main.go` line 12). -/
def defaultAddValue : String := "Something worth doing"

/-- Process-level outcome of one run. `fatalExit diag` is `log.Fatal`:
the diagnostic on the error stream and exit status 1. `exitZero` is normal
termination with exit status 0. -/
inductive RunResult where
  | fatalExit (diagnostic : String)
  | exitZero
deriving DecidableEq

/-- `main`: resolve the `-add` flag (its default when absent), run
`ParseInput`, hand the result to `PrettyPrintItem`, and discard the
`(n, err)` pair `PrettyPrintItem` returns. -/
def runAppExit (write : String → Nat × Option String)
    (addFlag : Option String) : RunResult :=
  match ParseInput (addFlag.getD defaultAddValue) with
  | Except.error diagnostic => RunResult.fatalExit diagnostic
  | Except.ok item =>
    let _ := PrettyPrintItem write item
    RunResult.exitZero

/-- Observable outcome of one run including the bytes offered to stdout:
either a fatal diagnostic (exit 1, nothing on the success path) or exit 0
with the rendered text (empty if marshalling failed, a branch `marshalTime`
never takes for parseable years). -/
inductive RunOutcome where
  | fatal (diagnostic : String)
  | success (stdoutText : String)
deriving DecidableEq

/-- One full process run as a function of the `-add` input alone. -/
def runPipeline (addFlag : Option String) : RunOutcome :=
  match ParseInput (addFlag.getD defaultAddValue) with
  | Except.error diagnostic => RunOutcome.fatal diagnostic
  | Except.ok item =>
    match renderedOutput item with
    | Except.error _ => RunOutcome.success ""
    | Except.ok s => RunOutcome.success s

/-! ## Substring machinery for output-content claims -/

/-- `sub` occurs contiguously in `hay`. -/
def listContainsSub (hay sub : List Char) : Bool :=
  match hay with
  | [] => sub.isEmpty
  | _ :: t => sub.isPrefixOf hay || listContainsSub t sub

/-- `sub` occurs contiguously in `hay`, at the character level. -/
def strContains (hay sub : String) : Bool :=
  listContainsSub hay.data sub.data


/-! ## Helper lemmas -/

theorem stringDataAppend (a b : String) : (a ++ b).data = a.data ++ b.data := by
  cases a; cases b; rfl

theorem containsNil (hay : List Char) : listContainsSub hay [] = true := by
  cases hay <;> simp [listContainsSub, List.isPrefixOf]

theorem isPrefixOfSelfApp (t b : List Char) : t.isPrefixOf (t ++ b) = true := by
  induction t with
  | nil => simp [List.isPrefixOf]
  | cons c cs ih => simp [List.isPrefixOf, List.cons_append, ih]

theorem containsSubApp (a t b : List Char) : listContainsSub (a ++ t ++ b) t = true := by
  induction a with
  | nil =>
    cases t with
    | nil => simpa using containsNil b
    | cons c cs =>
      have hp := isPrefixOfSelfApp (c :: cs) b
      show listContainsSub ((c :: cs) ++ b) (c :: cs) = true
      unfold listContainsSub
      rw [List.cons_append]
      rw [List.cons_append] at hp
      rw [hp]
      simp
  | cons x xs ih =>
    show listContainsSub (x :: (xs ++ t ++ b)) t = true
    unfold listContainsSub
    rw [ih]
    simp

theorem strContainsOfSplit (hay sub : String) (a b : List Char)
    (h : hay.data = a ++ sub.data ++ b) : strContains hay sub = true := by
  unfold strContains
  rw [h]
  exact containsSubApp a sub.data b

theorem jsonToTodoItemPair (T D : String) :
    jsonToTodoItem (Json.obj [("todo", Json.str T), ("due", Json.str D)]) =
      some { Todo := T, Due := D } := by rfl

theorem jsonToTodoItemSingle (T : String) :
    jsonToTodoItem (Json.obj [("todo", Json.str T)]) = some { Todo := T, Due := "" } := by rfl

theorem unmarshalOfParse (s : String) (j : Json) (h : parseJson s = some j) :
    UnmarshalTodoItem s = jsonToTodoItem j := by
  unfold UnmarshalTodoItem
  rw [h]
  rfl

/-- A character the Go JSON string encoder emits unchanged. -/
theorem encodePlain (T : String) (hT : T.data.all (fun c => escapeGoChar c == [c]) = true) :
    encodeGoString T = "\"" ++ T ++ "\"" := by
  cases T with
  | mk l =>
    have hflat : (l.map escapeGoChar).flatten = l := by
      induction l with
      | nil => rfl
      | cons c cs ih =>
        simp only [List.all_cons, Bool.and_eq_true] at hT
        simp [List.map, List.flatten_cons, eq_of_beq hT.1, ih hT.2]
    unfold encodeGoString
    show String.mk ('"' :: (l.map escapeGoChar).flatten ++ ['"']) = _
    rw [hflat]
    rfl

theorem dvalLe9 (c : Char) (h : c.isDigit = true) : dval c ≤ 9 := by
  simp [Char.isDigit] at h
  obtain ⟨h1, h2⟩ := h
  have h2n : c.toNat ≤ 57 := h2
  have h1n : 48 ≤ c.toNat := h1
  unfold dval
  omega

/-- The spec's description of a well-formed due date, on the raw characters:
four digits, a hyphen, two digits, a hyphen, two digits, and the resulting
month and day in range for the (Gregorian) calendar. -/
def validYmdChars : List Char → Prop
  | [y1, y2, y3, y4, h1, m1, m2, h2, d1, d2] =>
    y1.isDigit ∧ y2.isDigit ∧ y3.isDigit ∧ y4.isDigit ∧ h1 = '-' ∧
    m1.isDigit ∧ m2.isDigit ∧ h2 = '-' ∧ d1.isDigit ∧ d2.isDigit ∧
    1 ≤ dval m1 * 10 + dval m2 ∧ dval m1 * 10 + dval m2 ≤ 12 ∧
    1 ≤ dval d1 * 10 + dval d2 ∧
    dval d1 * 10 + dval d2 ≤
      daysIn (dval m1 * 10 + dval m2) (((dval y1 * 10 + dval y2) * 10 + dval y3) * 10 + dval y4)
  | _ => False

/-- The spec's description of a valid non-empty due-date string. -/
def isValidYmd (s : String) : Prop := validYmdChars s.data

theorem goParseYmdIff (cs : List Char) : (∃ d, goParseYmd cs = some d) ↔ validYmdChars cs := by
  unfold goParseYmd validYmdChars
  split
  · split_ifs with hB hP
    · simp only [Option.some.injEq, exists_eq]
      simp only [Bool.and_eq_true, beq_iff_eq] at hB
      obtain ⟨⟨⟨⟨⟨⟨⟨⟨⟨b1, b2⟩, b3⟩, b4⟩, b5⟩, b6⟩, b7⟩, b8⟩, b9⟩, b10⟩ := hB
      exact iff_of_true ⟨_, rfl⟩
        ⟨b1, b2, b3, b4, b5, b6, b7, b8, b9, b10, hP.1, hP.2.1, hP.2.2.1, hP.2.2.2⟩
    · constructor
      · rintro ⟨d, h⟩; cases h
      · rintro ⟨_, _, _, _, _, _, _, _, _, _, r1, r2, r3, r4⟩
        exact absurd ⟨r1, r2, r3, r4⟩ hP
    · constructor
      · rintro ⟨d, h⟩; cases h
      · rintro ⟨c1, c2, c3, c4, c5, c6, c7, c8, c9, c10, _⟩
        exact absurd (by simp [c1, c2, c3, c4, c5, c6, c7, c8, c9, c10]) hB
  · constructor
    · rintro ⟨d, h⟩; cases h
    · intro hv; exact absurd hv (fun h => h)

theorem goParseYmdBounds (cs : List Char) (d : GoDate) (h : goParseYmd cs = some d) :
    1 ≤ d.month ∧ d.month ≤ 12 ∧ 1 ≤ d.day ∧ d.day ≤ daysIn d.month d.year ∧ d.year ≤ 9999 := by
  unfold goParseYmd at h
  split at h
  · split_ifs at h with hB hP
    · injection h with h
      subst h
      simp only [Bool.and_eq_true, beq_iff_eq] at hB
      obtain ⟨⟨⟨⟨⟨⟨⟨⟨⟨b1, b2⟩, b3⟩, b4⟩, b5⟩, b6⟩, b7⟩, b8⟩, b9⟩, b10⟩ := hB
      have q1 := dvalLe9 _ b1
      have q2 := dvalLe9 _ b2
      have q3 := dvalLe9 _ b3
      have q4 := dvalLe9 _ b4
      exact ⟨hP.1, hP.2.1, hP.2.2.1, hP.2.2.2, by dsimp only; omega⟩
  · cases h

theorem parseDuedateCases (s : String) (d : GoDate) (h : parseDuedate s = Except.ok d) :
    d = zeroTime ∨
      (1 ≤ d.month ∧ d.month ≤ 12 ∧ 1 ≤ d.day ∧ d.day ≤ daysIn d.month d.year ∧
        d.year ≤ 9999) := by
  unfold parseDuedate at h
  split_ifs at h with he
  · left
    injection h with h
    exact h.symm
  · right
    cases hg : goParseYmd s.data with
    | none => rw [hg] at h; cases h
    | some d2 =>
      rw [hg] at h
      injection h with h
      subst h
      exact goParseYmdBounds _ _ hg

theorem parseDuedateYearLe (s : String) (d : GoDate) (h : parseDuedate s = Except.ok d) :
    d.year ≤ 9999 := by
  rcases parseDuedateCases s d h with rfl | ⟨_, _, _, _, hy⟩
  · exact by norm_num [zeroTime]
  · exact hy

theorem renderedOutputOk (T : String) (d : GoDate) (hy : d.year ≤ 9999) :
    renderedOutput { Todo := T, Due := d } =
      Except.ok ("You entered:\n\n\t" ++ ("\x7b\n\t\t\"Todo\": " ++ encodeGoString T
        ++ ",\n\t\t\"Due\": " ++ ("\"" ++ rfc3339Midnight d ++ "\"") ++ "\n\t\x7d")) := by
  have hy2 : ¬ ({ Todo := T, Due := d } : ParsedTodoItem).Due.year > 9999 := by
    dsimp only
    omega
  unfold renderedOutput marshalIndentItem marshalTime
  rw [if_neg hy2]

theorem ParseInputOk (s : String) (ti : TodoItem) (d : GoDate)
    (hu : UnmarshalTodoItem s = some ti) (hd : parseDuedate ti.Due = Except.ok d) :
    ParseInput s = Except.ok { Todo := ti.Todo, Due := d } := by
  unfold ParseInput
  rw [hu]
  show buildParsedItem ti = _
  unfold buildParsedItem
  rw [hd]

theorem ParseInputErr (s : String) (hu : UnmarshalTodoItem s = none) :
    ParseInput s = Except.error "Invalid JSON passed to ./todo-app" := by
  unfold ParseInput
  rw [hu]

theorem runAppExitFatal (write : String → Nat × Option String) (s diag : String)
    (h : ParseInput s = Except.error diag) :
    runAppExit write (some s) = RunResult.fatalExit diag := by
  unfold runAppExit
  simp [h]

theorem runAppExitOk (write : String → Nat × Option String) (s : String) (item : ParsedTodoItem)
    (h : ParseInput s = Except.ok item) : runAppExit write (some s) = RunResult.exitZero := by
  unfold runAppExit
  simp [h]

theorem containsSubMono (a b t : List Char) (h : listContainsSub b t = true) :
    listContainsSub (a ++ b) t = true := by
  induction a with
  | nil => simpa
  | cons x xs ih =>
    show listContainsSub (x :: (xs ++ b)) t = true
    unfold listContainsSub
    rw [ih]
    simp

theorem ParseInputInv (s : String) (item : ParsedTodoItem)
    (h : ParseInput s = Except.ok item) :
    ∃ ti, UnmarshalTodoItem s = some ti ∧
      parseDuedate ti.Due = Except.ok item.Due ∧ item.Todo = ti.Todo := by
  unfold ParseInput at h
  cases hu : UnmarshalTodoItem s with
  | none => rw [hu] at h; cases h
  | some ti =>
    rw [hu] at h
    have h2 : buildParsedItem ti = Except.ok item := h
    unfold buildParsedItem at h2
    cases hd : parseDuedate ti.Due with
    | error e => rw [hd] at h2; cases h2
    | ok d =>
      rw [hd] at h2
      injection h2 with h2
      refine ⟨ti, rfl, ?_, ?_⟩
      · rw [← h2]; exact hd
      · rw [← h2]

/-! ## The claims -/

/-- C1: every input string that is not syntactically valid JSON, or that is
valid JSON whose shape does not match the expected object (wrong type for the
`todo` or `due` key), makes the pipeline fail fatally: `ParseInput` stops with
the fixed diagnostic "Invalid JSON passed to ./todo-app", the process exits
non-zero (`RunResult.fatalExit`), and no `ParsedTodoItem` is produced. -/
theorem c1_malformed_input_fatal (input : String)
    (h : parseJson input = none ∨
      ∃ j, parseJson input = some j ∧ jsonToTodoItem j = none) :
    ParseInput input = Except.error "Invalid JSON passed to ./todo-app" ∧
    (∀ write, runAppExit write (some input) =
      RunResult.fatalExit "Invalid JSON passed to ./todo-app") ∧
    (∀ item, ParseInput input ≠ Except.ok item) := by
  have hu : UnmarshalTodoItem input = none := by
    unfold UnmarshalTodoItem
    rcases h with h | ⟨j, h1, h2⟩
    · rw [h]; rfl
    · rw [h1]
      show jsonToTodoItem j = none
      exact h2
  have he := ParseInputErr input hu
  exact ⟨he, fun write => runAppExitFatal write _ _ he,
    fun item hcontra => by rw [he] at hcontra; cases hcontra⟩

theorem c1_malformed_input_fatal_witness :
    ParseInput "not json" = Except.error "Invalid JSON passed to ./todo-app" ∧
    ParseInput "\x7b\"todo\": 5\x7d" = Except.error "Invalid JSON passed to ./todo-app" := by
  refine ⟨(c1_malformed_input_fatal "not json" ?_).1,
    (c1_malformed_input_fatal "\x7b\"todo\": 5\x7d" ?_).1⟩
  · left; rfl
  · right; exact ⟨Json.obj [("todo", Json.num "5")], rfl, rfl⟩

/-- C2: `parseDuedate` returns the zero-value sentinel date on the empty
string with no error; on non-empty strings it succeeds exactly on valid
`YYYY-MM-DD` calendar dates (`isValidYmd`), and on every other non-empty
string it fails fatally with the diagnostic "Badly formed due date.". -/
theorem c2_parseDuedate_contract :
    parseDuedate "" = Except.ok zeroTime ∧
    (∀ s : String, s ≠ "" → ((∃ d, parseDuedate s = Except.ok d) ↔ isValidYmd s)) ∧
    (∀ s : String, s ≠ "" → ¬ isValidYmd s →
      parseDuedate s = Except.error "Badly formed due date.") := by
  refine ⟨rfl, ?_, ?_⟩
  · intro s hne
    unfold parseDuedate
    rw [if_neg hne]
    constructor
    · rintro ⟨d, hd⟩
      apply (goParseYmdIff s.data).mp
      cases hg : goParseYmd s.data with
      | none => rw [hg] at hd; cases hd
      | some d2 => exact ⟨d2, rfl⟩
    · intro hv
      obtain ⟨d, hd⟩ := (goParseYmdIff s.data).mpr hv
      exact ⟨d, by rw [hd]⟩
  · intro s hne hnv
    unfold parseDuedate
    rw [if_neg hne]
    cases hg : goParseYmd s.data with
    | none => rfl
    | some d => exact absurd ((goParseYmdIff s.data).mp ⟨d, hg⟩) hnv

theorem c2_parseDuedate_contract_witness :
    parseDuedate "" = Except.ok zeroTime ∧
    (∃ d, parseDuedate "2020-02-02" = Except.ok d) ∧
    parseDuedate "2020-13-01" = Except.error "Badly formed due date." := by
  have h := c2_parseDuedate_contract
  refine ⟨h.1, ⟨⟨2020, 2, 2⟩, rfl⟩, h.2.2 "2020-13-01" (by decide) ?_⟩
  intro hv
  obtain ⟨d, hd⟩ := (goParseYmdIff "2020-13-01".data).mpr hv
  rw [show goParseYmd "2020-13-01".data = none from rfl] at hd
  cases hd

/-- C3: the `ParsedTodoItem` construction step copies `Todo` verbatim and
sets `Due` to exactly the result of `parseDuedate` on the raw `Due`, with no
further validation; in particular an empty `Todo` is accepted whenever the
date parses. -/
theorem c3_buildParsedItem_pure (raw : TodoItem) (d : GoDate)
    (h : parseDuedate raw.Due = Except.ok d) :
    buildParsedItem raw = Except.ok { Todo := raw.Todo, Due := d } ∧
    buildParsedItem { Todo := "", Due := raw.Due } = Except.ok { Todo := "", Due := d } := by
  constructor
  · unfold buildParsedItem
    rw [h]
  · unfold buildParsedItem
    dsimp only
    rw [h]

theorem c3_buildParsedItem_pure_witness :
    buildParsedItem { Todo := "Practice Go", Due := "2020-02-02" } =
      Except.ok { Todo := "Practice Go", Due := { year := 2020, month := 2, day := 2 } } ∧
    buildParsedItem { Todo := "", Due := "2020-02-02" } =
      Except.ok { Todo := "", Due := { year := 2020, month := 2, day := 2 } } :=
  ⟨(c3_buildParsedItem_pure { Todo := "Practice Go", Due := "2020-02-02" } _ (by rfl)).1,
   (c3_buildParsedItem_pure { Todo := "Practice Go", Due := "2020-02-02" } _ (by rfl)).2⟩

/-- C4: every `ParsedTodoItem` the pipeline constructs has a `Due` that is
either the zero-value sentinel or a calendar date in range (month 1..12, day
within the month's length); malformed input never reaches this point
(`ParseInput` returns an error instead of an item). -/
theorem c4_due_invariant (input : String) (item : ParsedTodoItem)
    (h : ParseInput input = Except.ok item) :
    item.Due = zeroTime ∨
      (1 ≤ item.Due.month ∧ item.Due.month ≤ 12 ∧ 1 ≤ item.Due.day ∧
        item.Due.day ≤ daysIn item.Due.month item.Due.year) := by
  obtain ⟨ti, _, hd, _⟩ := ParseInputInv input item h
  rcases parseDuedateCases ti.Due item.Due hd with h0 | ⟨r1, r2, r3, r4, _⟩
  · exact Or.inl h0
  · exact Or.inr ⟨r1, r2, r3, r4⟩

theorem c4_due_invariant_witness :
    ({ Todo := "Practice Go", Due := { year := 2020, month := 2, day := 2 } } :
        ParsedTodoItem).Due = zeroTime ∨
      (1 ≤ ({ Todo := "Practice Go", Due := { year := 2020, month := 2, day := 2 } } :
          ParsedTodoItem).Due.month ∧
        ({ Todo := "Practice Go", Due := { year := 2020, month := 2, day := 2 } } :
          ParsedTodoItem).Due.month ≤ 12 ∧
        1 ≤ ({ Todo := "Practice Go", Due := { year := 2020, month := 2, day := 2 } } :
          ParsedTodoItem).Due.day ∧
        ({ Todo := "Practice Go", Due := { year := 2020, month := 2, day := 2 } } :
          ParsedTodoItem).Due.day ≤
          daysIn ({ Todo := "Practice Go", Due := { year := 2020, month := 2, day := 2 } } :
            ParsedTodoItem).Due.month
            ({ Todo := "Practice Go", Due := { year := 2020, month := 2, day := 2 } } :
              ParsedTodoItem).Due.year) :=
  c4_due_invariant "\x7b\"todo\": \"Practice Go\", \"due\": \"2020-02-02\"\x7d" _ (by rfl)

/-- C5: a JSON object with the `due` key omitted and the same object with
`due` present as `""` deserialize to the same `TodoItem` (the `Due` collapses
to the empty string) and both yield a `ParsedTodoItem` whose `Due` is the
absent-date sentinel, for every task string `T`. -/
theorem c5_omitted_due_eq_empty (s1 s2 T : String)
    (h1 : parseJson s1 = some (Json.obj [("todo", Json.str T)]))
    (h2 : parseJson s2 = some (Json.obj [("todo", Json.str T), ("due", Json.str "")])) :
    UnmarshalTodoItem s1 = some { Todo := T, Due := "" } ∧
    UnmarshalTodoItem s2 = some { Todo := T, Due := "" } ∧
    ParseInput s1 = Except.ok { Todo := T, Due := zeroTime } ∧
    ParseInput s2 = Except.ok { Todo := T, Due := zeroTime } := by
  have hu1 : UnmarshalTodoItem s1 = some { Todo := T, Due := "" } :=
    (unmarshalOfParse s1 _ h1).trans (jsonToTodoItemSingle T)
  have hu2 : UnmarshalTodoItem s2 = some { Todo := T, Due := "" } :=
    (unmarshalOfParse s2 _ h2).trans (jsonToTodoItemPair T "")
  exact ⟨hu1, hu2, ParseInputOk s1 _ zeroTime hu1 (by rfl),
    ParseInputOk s2 _ zeroTime hu2 (by rfl)⟩

theorem c5_omitted_due_eq_empty_witness :
    UnmarshalTodoItem "\x7b\"todo\": \"Practice Go\"\x7d" =
      some { Todo := "Practice Go", Due := "" } ∧
    UnmarshalTodoItem "\x7b\"todo\": \"Practice Go\", \"due\": \"\"\x7d" =
      some { Todo := "Practice Go", Due := "" } ∧
    ParseInput "\x7b\"todo\": \"Practice Go\"\x7d" =
      Except.ok { Todo := "Practice Go", Due := zeroTime } ∧
    ParseInput "\x7b\"todo\": \"Practice Go\", \"due\": \"\"\x7d" =
      Except.ok { Todo := "Practice Go", Due := zeroTime } :=
  c5_omitted_due_eq_empty "\x7b\"todo\": \"Practice Go\"\x7d"
    "\x7b\"todo\": \"Practice Go\", \"due\": \"\"\x7d" "Practice Go" (by rfl) (by rfl)

/-- C7: the pipeline is deterministic — two runs on the same `-add` input
produce the same outcome (including the exact bytes offered to stdout);
the outcome is a pure function of the input string. -/
theorem c7_deterministic (addFlag : Option String) (r1 r2 : RunOutcome)
    (h1 : r1 = runPipeline addFlag) (h2 : r2 = runPipeline addFlag) : r1 = r2 := by
  rw [h1, h2]

theorem c7_deterministic_witness :
    RunOutcome.success
        "You entered:\n\n\t\x7b\n\t\t\"Todo\": \"Practice Go\",\n\t\t\"Due\": \"2020-02-02T00:00:00Z\"\n\t\x7d" =
      RunOutcome.success
        "You entered:\n\n\t\x7b\n\t\t\"Todo\": \"Practice Go\",\n\t\t\"Due\": \"2020-02-02T00:00:00Z\"\n\t\x7d" :=
  c7_deterministic (some "\x7b\"todo\": \"Practice Go\", \"due\": \"2020-02-02\"\x7d") _ _
    (by rfl) (by rfl)

/-- C8: `PrettyPrintItem` never terminates the process: marshalling or write
failures come back to the caller as a `(count, error)` pair, and `main`
discards that pair, so the process outcome is identical under any two write
behaviours (a write failure is non-fatal and triggers no corrective action). -/
theorem c8_render_nonfatal (write1 write2 : String → Nat × Option String)
    (addFlag : Option String) :
    runAppExit write1 addFlag = runAppExit write2 addFlag ∧
    (∀ item out, renderedOutput item = Except.ok out →
      PrettyPrintItem write1 item = write1 out) ∧
    (∀ item e, renderedOutput item = Except.error e →
      PrettyPrintItem write1 item = (0, some e)) := by
  refine ⟨?_, ?_, ?_⟩
  · unfold runAppExit
    cases ParseInput (addFlag.getD defaultAddValue) <;> rfl
  · intro item out h
    unfold PrettyPrintItem
    rw [h]
  · intro item e h
    unfold PrettyPrintItem
    rw [h]

/-- A stdout whose writes always fail, for exercising the write-error path. -/
def brokenStdout : String → Nat × Option String := fun _ => (0, some "write: broken pipe")

theorem c8_render_nonfatal_witness :
    runAppExit goodStdout (some "\x7b\"todo\": \"Practice Go\"\x7d") =
      runAppExit brokenStdout (some "\x7b\"todo\": \"Practice Go\"\x7d") ∧
    PrettyPrintItem goodStdout { Todo := "Practice Go", Due := zeroTime } =
      goodStdout
        "You entered:\n\n\t\x7b\n\t\t\"Todo\": \"Practice Go\",\n\t\t\"Due\": \"0001-01-01T00:00:00Z\"\n\t\x7d" :=
  ⟨(c8_render_nonfatal goodStdout brokenStdout (some "\x7b\"todo\": \"Practice Go\"\x7d")).1,
   (c8_render_nonfatal goodStdout brokenStdout none).2.1 _ _ (by rfl)⟩

/-- C9 counterexample: the claim says the `-add` default is a placeholder
JSON string matching the data model's object shape, but the default
"Something worth doing" is not valid JSON at all, so a run with no arguments
terminates fatally with the Invalid JSON diagnostic instead of succeeding. -/
theorem c9_default_not_json :
    parseJson defaultAddValue = none ∧
    runAppExit goodStdout none = RunResult.fatalExit "Invalid JSON passed to ./todo-app" :=
  ⟨rfl, rfl⟩

/-- C9 (amended): the single `-add` flag's default is the fixed placeholder
string "Something worth doing"; with no arguments the program runs the same
pipeline on that placeholder, which is not valid JSON, so the run terminates
fatally with the Invalid JSON diagnostic. -/
theorem c9_default_placeholder :
    defaultAddValue = "Something worth doing" ∧
    (∀ write, runAppExit write none = runAppExit write (some defaultAddValue)) ∧
    (∀ write, runAppExit write none =
      RunResult.fatalExit "Invalid JSON passed to ./todo-app") :=
  ⟨rfl, fun _ => rfl, fun _ => rfl⟩

/-- C6 counterexample: the claim promises the rendered output contains the
task string T verbatim for any T, but Go's JSON encoder escapes `<` to
`\u003c`, so for the valid input with T = "<" and D = "" the pipeline
succeeds while the output nowhere contains "<". -/
theorem c6_verbatim_counterexample :
    ParseInput "\x7b\"todo\": \"<\", \"due\": \"\"\x7d" =
      Except.ok { Todo := "<", Due := zeroTime } ∧
    renderedOutput { Todo := "<", Due := zeroTime } =
      Except.ok
        "You entered:\n\n\t\x7b\n\t\t\"Todo\": \"\\u003c\",\n\t\t\"Due\": \"0001-01-01T00:00:00Z\"\n\t\x7d" ∧
    strContains
      "You entered:\n\n\t\x7b\n\t\t\"Todo\": \"\\u003c\",\n\t\t\"Due\": \"0001-01-01T00:00:00Z\"\n\t\x7d"
      "<" = false :=
  ⟨by rfl, by rfl, by rfl⟩

/-- C6 (amended): for every valid JSON input `\x7b"todo": T, "due": D\x7d`
with D empty or a valid `YYYY-MM-DD` date — T any string whatsoever — the
pipeline succeeds (exit 0) and the rendered output contains the JSON-escaped
encoding of T (quotes included, as Go's Marshal writes it); that encoding
bodies T verbatim, so the output contains T itself, whenever no character of
T is altered by Go's JSON string escaping; and the output contains the
RFC3339 rendering of the parsed date (the absent-date sentinel when D is
empty). -/
theorem c6_valid_input_renders (s T D : String)
    (hp : parseJson s = some (Json.obj [("todo", Json.str T), ("due", Json.str D)]))
    (hD : D = "" ∨ isValidYmd D) :
    ∃ item out, ParseInput s = Except.ok item ∧ item.Todo = T ∧
      (∀ write, runAppExit write (some s) = RunResult.exitZero) ∧
      renderedOutput item = Except.ok out ∧
      strContains out (encodeGoString T) = true ∧
      (T.data.all (fun c => escapeGoChar c == [c]) = true → strContains out T = true) ∧
      ∃ d, parseDuedate D = Except.ok d ∧ item.Due = d ∧
        strContains out (rfc3339Midnight d) = true := by
  have hu : UnmarshalTodoItem s = some { Todo := T, Due := D } :=
    (unmarshalOfParse s _ hp).trans (jsonToTodoItemPair T D)
  obtain ⟨d, hd⟩ : ∃ d, parseDuedate D = Except.ok d := by
    rcases hD with rfl | hv
    · exact ⟨zeroTime, rfl⟩
    · have hne : D ≠ "" := by
        intro he
        rw [he] at hv
        exact hv
      obtain ⟨d0, hg⟩ := (goParseYmdIff D.data).mpr hv
      refine ⟨d0, ?_⟩
      unfold parseDuedate
      rw [if_neg hne, hg]
  have hpi : ParseInput s = Except.ok { Todo := T, Due := d } :=
    ParseInputOk s _ d hu hd
  have hro := renderedOutputOk T d (parseDuedateYearLe D d hd)
  have hdata : ("You entered:\n\n\t" ++ ("\x7b\n\t\t\"Todo\": " ++ encodeGoString T
      ++ ",\n\t\t\"Due\": " ++ ("\"" ++ rfc3339Midnight d ++ "\"") ++ "\n\t\x7d")).data =
      "You entered:\n\n\t".data ++ ("\x7b\n\t\t\"Todo\": ".data ++ ((encodeGoString T).data ++
        (",\n\t\t\"Due\": ".data ++ ("\"".data ++ ((rfc3339Midnight d).data ++
          ("\"".data ++ "\n\t\x7d".data)))))) := by
    simp only [stringDataAppend, List.append_assoc]
  refine ⟨_, _, hpi, rfl, fun write => runAppExitOk write s _ hpi, hro, ?_, ?_, d, hd, rfl, ?_⟩
  · unfold strContains
    rw [hdata]
    apply containsSubMono
    apply containsSubMono
    exact containsSubApp [] (encodeGoString T).data _
  · intro hT
    have hencT := encodePlain T hT
    unfold strContains
    have hdata2 : ("You entered:\n\n\t" ++ ("\x7b\n\t\t\"Todo\": " ++ encodeGoString T
        ++ ",\n\t\t\"Due\": " ++ ("\"" ++ rfc3339Midnight d ++ "\"") ++ "\n\t\x7d")).data =
        "You entered:\n\n\t".data ++ ("\x7b\n\t\t\"Todo\": ".data ++ ("\"".data ++ (T.data ++
          ("\"".data ++ (",\n\t\t\"Due\": ".data ++ ("\"".data ++ ((rfc3339Midnight d).data ++
            ("\"".data ++ "\n\t\x7d".data)))))))) := by
      rw [hencT]
      simp only [stringDataAppend, List.append_assoc]
    rw [hdata2]
    apply containsSubMono
    apply containsSubMono
    apply containsSubMono
    exact containsSubApp [] T.data _
  · unfold strContains
    rw [hdata]
    apply containsSubMono
    apply containsSubMono
    apply containsSubMono
    apply containsSubMono
    apply containsSubMono
    exact containsSubApp [] (rfc3339Midnight d).data _

theorem c6_valid_input_renders_witness :
    ∃ item out,
      ParseInput "\x7b\"todo\": \"a<b\", \"due\": \"2020-02-02\"\x7d" =
        Except.ok item ∧
      item.Todo = "a<b" ∧
      (∀ write, runAppExit write (some "\x7b\"todo\": \"a<b\", \"due\": \"2020-02-02\"\x7d") =
        RunResult.exitZero) ∧
      renderedOutput item = Except.ok out ∧
      strContains out (encodeGoString "a<b") = true ∧
      ("a<b".data.all (fun c => escapeGoChar c == [c]) = true →
        strContains out "a<b" = true) ∧
      ∃ d, parseDuedate "2020-02-02" = Except.ok d ∧ item.Due = d ∧
        strContains out (rfc3339Midnight d) = true :=
  c6_valid_input_renders "\x7b\"todo\": \"a<b\", \"due\": \"2020-02-02\"\x7d"
    "a<b" "2020-02-02" (by rfl)
    (Or.inr ((goParseYmdIff "2020-02-02".data).mp ⟨⟨2020, 2, 2⟩, by rfl⟩))

/-- C10: the absent-date sentinel is not omitted or specially labelled in the
rendered output — the zero-value `Due` serializes like any other date, so the
success output of an item with no due date carries the zero-time rendering
"0001-01-01T00:00:00Z" as the value of the `Due` field. -/
theorem c10_zero_due_rendered (item : ParsedTodoItem) (h : item.Due = zeroTime) :
    rfc3339Midnight zeroTime = "0001-01-01T00:00:00Z" ∧
    ∃ out, renderedOutput item = Except.ok out ∧
      strContains out "\"Due\": \"0001-01-01T00:00:00Z\"" = true := by
  obtain ⟨T, due⟩ := item
  have h2 : due = zeroTime := h
  subst h2
  refine ⟨rfl, ?_⟩
  have hro := renderedOutputOk T zeroTime (by norm_num [zeroTime])
  refine ⟨_, hro, ?_⟩
  unfold strContains
  rw [show rfc3339Midnight zeroTime = "0001-01-01T00:00:00Z" from rfl]
  have hdata : ("You entered:\n\n\t" ++ ("\x7b\n\t\t\"Todo\": " ++ encodeGoString T
      ++ ",\n\t\t\"Due\": " ++ ("\"" ++ "0001-01-01T00:00:00Z" ++ "\"") ++ "\n\t\x7d")).data =
      "You entered:\n\n\t".data ++ ("\x7b\n\t\t\"Todo\": ".data ++ ((encodeGoString T).data ++
        (",\n\t\t\"Due\": ".data ++ ("\"".data ++ ("0001-01-01T00:00:00Z".data ++
          ("\"".data ++ "\n\t\x7d".data)))))) := by
    simp only [stringDataAppend, List.append_assoc]
  rw [hdata]
  apply containsSubMono
  apply containsSubMono
  apply containsSubMono
  decide

theorem c10_zero_due_rendered_witness :
    rfc3339Midnight zeroTime = "0001-01-01T00:00:00Z" ∧
    ∃ out, renderedOutput { Todo := "Write spec", Due := zeroTime } = Except.ok out ∧
      strContains out "\"Due\": \"0001-01-01T00:00:00Z\"" = true :=
  c10_zero_due_rendered { Todo := "Write spec", Due := zeroTime } (by rfl)
